import Mathlib

/-!
Verification of the zkAliPay orderbook coordinator (Rust sources under
`orderbook/src`) against its natural-language specification.

Shallow embedding conventions:

* Rust byte strings and `&str` values are modelled as `List Nat` with every
  element below 256 (their UTF-8 bytes).  Concrete literals are produced by
  `utf8`, a byte-exact model of Rust `str::as_bytes`.
* `rust_decimal::Decimal` database columns (token amounts and exchange rates)
  are modelled as `Int`.  The repository only adds, subtracts, compares and
  takes minima of these values, so the embedding is exact on the values the
  chain produces; the lossless round trip through `String` columns noted in
  the spec is modelled as identity.
* Fallible Rust functions returning `Result` are modelled with `Except`; a
  Rust panic (string slicing off a character boundary) is modelled as a
  distinct outcome constructor, never silently merged with `Err`.
* Postgres tables are modelled as lists of rows in insertion order; the SQL
  statements of the repositories (`INSERT .. ON CONFLICT DO NOTHING`,
  single-row `UPDATE` with a rows-affected check) are modelled one to one.
* Wall-clock timestamps (`chrono::Utc::now`) are irrelevant to every claim
  and are modelled as the constant 0.
-/

/-! ## Byte-level helpers -/

/-- UTF-8 encoding of one character, as natural-number bytes.  Model of the
encoding Rust uses for `String` / `str` storage. -/
def utf8Char (c : Char) : List Nat :=
  let n := c.toNat
  if n < 128 then [n]
  else if n < 2048 then [192 + n / 64, 128 + n % 64]
  else if n < 65536 then [224 + n / 4096, 128 + n / 64 % 64, 128 + n % 64]
  else [240 + n / 262144, 128 + n / 4096 % 64, 128 + n / 64 % 64, 128 + n % 64]

/-- UTF-8 bytes of a string: model of Rust `str::as_bytes`. -/
def utf8 (s : String) : List Nat := s.data.flatMap utf8Char

/-- Little-endian 4-byte encoding of a 32-bit value: model of
`uint32_to_little_endian` / `u32::to_le_bytes` in
`orderbook/src/pdf_validation/mod.rs`. -/
def u32le (n : Nat) : List Nat := [n % 256, n / 256 % 256, n / 65536 % 256, n / 16777216 % 256]

/-- Big-endian 8-byte encoding of a 64-bit value (SHA-256 length field). -/
def u64be (n : Nat) : List Nat :=
  [n / 72057594037927936 % 256, n / 281474976710656 % 256, n / 1099511627776 % 256,
   n / 4294967296 % 256, n / 16777216 % 256, n / 65536 % 256, n / 256 % 256, n % 256]

/-- Big-endian 4-byte encoding of a 32-bit value (SHA-256 digest output). -/
def u32be (n : Nat) : List Nat := [n / 16777216 % 256, n / 65536 % 256, n / 256 % 256, n % 256]

/-- ASCII decimal digits of a natural number: model of Rust
`format` with the `{}` placeholder on unsigned integers. -/
def natDecBytes (n : Nat) : List Nat := (Nat.toDigits 10 n).map Char.toNat

/-- Two-digit zero-padded ASCII decimal: model of the Rust `{:02}` format
specifier applied to `cents % 100`. -/
def pad2 (r : Nat) : List Nat := if r < 10 then 48 :: natDecBytes r else natDecBytes r

/-! ## SHA-256 over byte lists

A from-scratch executable SHA-256 (FIPS 180-4), used by both the embedded
`compute_expected_hash` and the specification-side formula.  Words are `Nat`
reduced modulo `2 ^ 32` at every step. -/

/-- Right rotation of a 32-bit word. -/
def rotr32 (n x : Nat) : Nat := ((x >>> n) ||| (x <<< (32 - n))) % 4294967296

/-- SHA-256 big sigma 0. -/
def bsig0 (x : Nat) : Nat := rotr32 2 x ^^^ rotr32 13 x ^^^ rotr32 22 x

/-- SHA-256 big sigma 1. -/
def bsig1 (x : Nat) : Nat := rotr32 6 x ^^^ rotr32 11 x ^^^ rotr32 25 x

/-- SHA-256 small sigma 0. -/
def ssig0 (x : Nat) : Nat := rotr32 7 x ^^^ rotr32 18 x ^^^ (x >>> 3)

/-- SHA-256 small sigma 1. -/
def ssig1 (x : Nat) : Nat := rotr32 17 x ^^^ rotr32 19 x ^^^ (x >>> 10)

/-- SHA-256 choose function; 32-bit complement written as xor with the all-ones
word. -/
def chFn (x y z : Nat) : Nat := (x &&& y) ^^^ ((x ^^^ 4294967295) &&& z)

/-- SHA-256 majority function. -/
def majFn (x y z : Nat) : Nat := (x &&& y) ^^^ (x &&& z) ^^^ (y &&& z)

/-- The 64 SHA-256 round constants, written in decimal. -/
def sha256K : List Nat :=
  [1116352408, 1899447441, 3049323471, 3921009573, 961987163, 1508970993,
   2453635748, 2870763221, 3624381080, 310598401, 607225278, 1426881987,
   1925078388, 2162078206, 2614888103, 3248222580, 3835390401, 4022224774,
   264347078, 604807628, 770255983, 1249150122, 1555081692, 1996064986,
   2554220882, 2821834349, 2952996808, 3210313671, 3336571891, 3584528711,
   113926993, 338241895, 666307205, 773529912, 1294757372, 1396182291,
   1695183700, 1986661051, 2177026350, 2456956037, 2730485921, 2820302411,
   3259730800, 3345764771, 3516065817, 3600352804, 4094571909, 275423344,
   430227734, 506948616, 659060556, 883997877, 958139571, 1322822218,
   1537002063, 1747873779, 1955562222, 2024104815, 2227730452, 2361852424,
   2428436474, 2756734187, 3204031479, 3329325298]

/-- The SHA-256 initial hash value, written in decimal. -/
def sha256H0 : List Nat :=
  [1779033703, 3144134277, 1013904242, 2773480762,
   1359893119, 2600822924, 528734635, 1541459225]

/-- SHA-256 message padding: the 0x80 marker, zeros to 56 mod 64, and the
bit length as a big-endian 64-bit integer. -/
def sha256Pad (msg : List Nat) : List Nat :=
  msg ++ (128 :: List.replicate ((64 - (msg.length + 9) % 64) % 64) 0) ++ u64be (8 * msg.length)

/-- Group bytes into big-endian 32-bit words. -/
def bytesToWordsBE : List Nat → List Nat
  | a :: b :: c :: d :: rest => (((a * 256 + b) * 256 + c) * 256 + d) :: bytesToWordsBE rest
  | _ => []

/-- Extend a 16-word block by the given number of schedule words. -/
def extendSchedule (ws : List Nat) : Nat → List Nat
  | 0 => ws
  | n + 1 =>
    let t := ws.length
    let w := (ssig1 (ws.getD (t - 2) 0) + ws.getD (t - 7) 0 + ssig0 (ws.getD (t - 15) 0) +
      ws.getD (t - 16) 0) % 4294967296
    extendSchedule (ws ++ [w]) n

/-- The eight SHA-256 working registers. -/
structure Sha256Regs where
  a : Nat
  b : Nat
  c : Nat
  d : Nat
  e : Nat
  f : Nat
  g : Nat
  h : Nat

/-- One SHA-256 compression round. -/
def sha256Round (r : Sha256Regs) (k w : Nat) : Sha256Regs :=
  let t1 := (r.h + bsig1 r.e + chFn r.e r.f r.g + k + w) % 4294967296
  let t2 := (bsig0 r.a + majFn r.a r.b r.c) % 4294967296
  { a := (t1 + t2) % 4294967296, b := r.a, c := r.b, d := r.c,
    e := (r.d + t1) % 4294967296, f := r.e, g := r.f, h := r.g }

/-- Compress one 16-word block into the running 8-word state. -/
def sha256Compress (h : List Nat) (block : List Nat) : List Nat :=
  let ws := extendSchedule block 48
  let r0 : Sha256Regs :=
    ⟨h.getD 0 0, h.getD 1 0, h.getD 2 0, h.getD 3 0, h.getD 4 0, h.getD 5 0, h.getD 6 0, h.getD 7 0⟩
  let r := (sha256K.zip ws).foldl (fun r kw => sha256Round r kw.1 kw.2) r0
  [(h.getD 0 0 + r.a) % 4294967296, (h.getD 1 0 + r.b) % 4294967296,
   (h.getD 2 0 + r.c) % 4294967296, (h.getD 3 0 + r.d) % 4294967296,
   (h.getD 4 0 + r.e) % 4294967296, (h.getD 5 0 + r.f) % 4294967296,
   (h.getD 6 0 + r.g) % 4294967296, (h.getD 7 0 + r.h) % 4294967296]

/-- Fuel-driven block loop (structural recursion so the kernel can evaluate
concrete digests). -/
def sha256Loop : Nat → List Nat → List Nat → List Nat
  | 0, h, _ => h
  | fuel + 1, h, ws =>
    if ws.isEmpty then h else sha256Loop fuel (sha256Compress h (ws.take 16)) (ws.drop 16)

/-- SHA-256 of a byte list, as 32 bytes.  Model of `sha2::Sha256::digest`. -/
def sha256 (msg : List Nat) : List Nat :=
  let ws := bytesToWordsBE (sha256Pad msg)
  (sha256Loop ws.length sha256H0 ws).flatMap u32be

/-! ## Receipt facts: formatting, masking, the expected hash

Embedding of `orderbook/src/pdf_validation/mod.rs` (the byte-identical copies
in `orderbook/src/api/handlers/generate_proof.rs` lines 35 to 114 share it).
The handler copy returns the raw 32 digest bytes and the pdf_validation copy
hex-encodes the same digest; the embedding returns the bytes. -/

/-- Model of `format_cny_amount`: cents to a decimal string with exactly two
fraction digits, as UTF-8 bytes (46 is the dot). -/
def format_cny_amount (cents : Nat) : List Nat :=
  natDecBytes (cents / 100) ++ 46 :: pad2 (cents % 100)

/-- Continuation byte test: in valid UTF-8 a byte in 128..191 never starts a
character.  Rust `str::is_char_boundary` reduces to this test. -/
def contByte (b : Nat) : Bool := 128 ≤ b && b < 192

/-- Character-boundary test at byte index `i` of a UTF-8 byte list, as Rust
`str::is_char_boundary` computes it for in-range indices. -/
def isUtf8Boundary (bs : List Nat) (i : Nat) : Bool :=
  i == 0 || i == bs.length || (decide (i < bs.length) && !contByte (bs.getD i 0))

/-- Possible outcomes of `mask_alipay_id`.  Rust byte-range indexing of a
`str` panics when an endpoint is not a character boundary; that panic is the
`panicked` outcome. -/
inductive MaskOutcome where
  | ok (masked : List Nat)
  | lengthErr
  | panicked
deriving DecidableEq

/-- Model of `mask_alipay_id` (`pdf_validation/mod.rs` lines 114 to 124):
reject unless the byte length is 11, then take the byte ranges 0..3 and 9..11
around a literal `"******"`.  The two range indexings panic when byte 3 or
byte 9 is a UTF-8 continuation byte. -/
def mask_alipay_id (alipay_id : List Nat) : MaskOutcome :=
  if alipay_id.length ≠ 11 then .lengthErr
  else if !isUtf8Boundary alipay_id 3 then .panicked
  else if !isUtf8Boundary alipay_id 9 then .panicked
  else .ok (alipay_id.take 3 ++ utf8 "******" ++ alipay_id.drop 9)

/-- Failure modes of `compute_expected_hash`. -/
inductive HashErr where
  | maskLength
  | maskPanic
  | pkLength
deriving DecidableEq

/-- Model of `compute_expected_hash` (`pdf_validation/mod.rs` lines 46 to 102
and the identical handler copy): the four receipt lines with their fixed line
numbers 20, 21, 29, 32 are hashed, then the verified byte 0x01, the 32-byte
public key DER hash and that digest are hashed again.  The hex-encoded
`public_key_der_hash` argument of the Rust function is modelled by its decoded
bytes; the length check on the decoded bytes is kept. -/
def compute_expected_hash (alipay_name alipay_id : List Nat) (cny_amount_cents : Nat)
    (payment_nonce pk_der_hash : List Nat) : Except HashErr (List Nat) :=
  match mask_alipay_id alipay_id with
  | .lengthErr => .error .maskLength
  | .panicked => .error .maskPanic
  | .ok masked =>
    let cny_formatted := format_cny_amount cny_amount_cents
    let line20 := utf8 "账户名：" ++ alipay_name
    let line21 := utf8 "账号：" ++ masked
    let line29 := utf8 "小写：" ++ cny_formatted
    let line32 := payment_nonce
    let lines_data := u32le 20 ++ line20 ++ u32le 21 ++ line21 ++
      u32le 29 ++ line29 ++ u32le 32 ++ line32
    let lines_hash := sha256 lines_data
    if pk_der_hash.length ≠ 32 then .error .pkLength
    else .ok (sha256 (1 :: (pk_der_hash ++ lines_hash)))

/-! Specification-side formula for claim C1, written from the words of the
claim rather than from the source. -/

/-- Specification wording: the first 3 characters, six asterisks, and the last
2 characters of the payee id (characters coincide with bytes on the ASCII
inputs the claim quantifies over). -/
def maskedPayeeIdSpec (payee_id : List Nat) : List Nat :=
  payee_id.take 3 ++ utf8 "******" ++ payee_id.drop (payee_id.length - 2)

/-- Specification wording: cents divided by 100, a dot, and cents modulo 100
zero-padded to 2 digits. -/
def fiatFormattedSpec (cents : Nat) : List Nat :=
  natDecBytes (cents / 100) ++ [46] ++
    (if cents % 100 < 10 then [48] ++ natDecBytes (cents % 100) else natDecBytes (cents % 100))

/-- Specification wording of the expected output hash:
SHA256 of 0x01, the pk DER hash, and SHA256 of the four length-tagged lines. -/
def expectedHashSpec (payee_name payee_id : List Nat) (cents : Nat)
    (nonce pk_der_hash : List Nat) : List Nat :=
  sha256 (1 :: (pk_der_hash ++
    sha256 (u32le 20 ++ (utf8 "账户名：" ++ payee_name) ++
      u32le 21 ++ (utf8 "账号：" ++ maskedPayeeIdSpec payee_id) ++
      u32le 29 ++ (utf8 "小写：" ++ fiatFormattedSpec cents) ++
      u32le 32 ++ nonce)))

/-! ## Database rows

Models of `DbOrder` and `DbTrade` (`orderbook/src/db/models.rs`), restricted
to the fields the claims touch.  Identifiers and addresses stay opaque
strings; Alipay fields are UTF-8 byte lists because they feed the hash. -/

/-- An order row: one on-chain offer mirrored into the projection. -/
structure DbOrder where
  order_id : String
  seller : String
  token : String
  total_amount : Int
  remaining_amount : Int
  exchange_rate : Int
  alipay_id : List Nat
  alipay_name : List Nat
  created_at : Int
deriving DecidableEq

/-- A trade row: one on-chain reservation mirrored into the projection.
Status encoding as in the source: 0 pending, 1 settled, 2 expired. -/
structure DbTrade where
  trade_id : String
  order_id : String
  buyer : String
  token_amount : Int
  cny_amount : Int
  payment_nonce : List Nat
  expires_at : Int
  status : Int
  escrow_tx_hash : Option String
  settlement_tx_hash : Option String
deriving DecidableEq

/-! ## Proof-pipeline handlers and the payment nonce

`generate_proof_handler` and `validate_pdf_axiom_handler`
(`orderbook/src/api/handlers/generate_proof.rs` lines 271 to 276 and 402 to
407) bind the nonce fed into line L32 and into the prover input streams. -/

/-- The literal nonce both handlers bind: `let payment_nonce = "18191527"`. -/
def HARDCODED_TEST_NONCE : List Nat := utf8 "18191527"

/-- The payment nonce the handlers actually use for a trade.  The source
binds the hard-coded literal and never reads `trade.payment_nonce`
(`generate_proof.rs` lines 273 and 404). -/
def handler_payment_nonce (_trade : DbTrade) : List Nat := HARDCODED_TEST_NONCE

/-- Line L32 as the handlers compute it: the nonce with no prefix. -/
def handler_line32 (trade : DbTrade) : List Nat := handler_payment_nonce trade

/-- The expected hash `validate_pdf_axiom_handler` computes for a trade
(step 4 of the handler): `compute_expected_hash` over the order Alipay
fields, the trade cents, the handler nonce and the contract pk hash.  The
cents value extracted from the stored decimal string is passed explicitly. -/
def validate_pdf_expected_hash (order : DbOrder) (trade : DbTrade) (cents : Nat)
    (pk_der_hash : List Nat) : Except HashErr (List Nat) :=
  compute_expected_hash order.alipay_name order.alipay_id cents
    (handler_payment_nonce trade) pk_der_hash

/-! ## OpenVM input-stream encoder

Model of `generate_openvm_streams` (`generate_proof.rs` lines 118 to 182 and
the identical copy in `pdf_validation/mod.rs` lines 133 to 196).  Each stream
is the byte list its hex string decodes to: a leading tag byte 1 followed by
the payload bytes. -/

/-- Little-endian byte flattening of a 32-bit word list, as the Rust helper
flat-maps `to_le_bytes` over the serializer output. -/
def wordsToBytesLE (ws : List Nat) : List Nat := ws.flatMap u32le

/-- Pack bytes into little-endian 32-bit words, zero-padding the last word.
Modelled from the spec: the prover SDK word serializer lays UTF-8 bytes into
a word-addressed memory (the `openvm` crate is external to this repository). -/
def packBytesToWords : List Nat → List Nat
  | [] => []
  | [a] => [a]
  | [a, b] => [a + 256 * b]
  | [a, b, c] => [a + 256 * b + 65536 * c]
  | a :: b :: c :: d :: rest => (a + 256 * b + 65536 * c + 16777216 * d) :: packBytesToWords rest

/-- Modelled from the spec: the openvm serializer emits one word for a `u32`
value. -/
def serWordsU32 (n : Nat) : List Nat := [n % 4294967296]

/-- Modelled from the spec: the openvm serializer emits one word for a `u8`
value. -/
def serWordsU8 (b : Nat) : List Nat := [b % 4294967296]

/-- Modelled from the spec: a string serializes as its length word followed
by its UTF-8 bytes packed into words. -/
def serWordsStr (bs : List Nat) : List Nat := bs.length :: packBytesToWords bs

/-- One value stream: the tag byte 1 followed by the little-endian bytes of
the serialized words (`add_value_stream` in the source). -/
def valueStream (ws : List Nat) : List Nat := 1 :: wordsToBytesLE ws

/-- Failure mode of the stream encoder: the decoded pk hash is not 32 bytes.
The hex-decode failure of the Rust source cannot occur because the argument
is modelled as the decoded bytes. -/
inductive StreamErr where
  | pkLength
deriving DecidableEq

/-- Model of `generate_openvm_streams`: the padded receipt stream, the page
stream, the line-count stream, two streams per line, the hash-length stream,
and one stream per pk hash byte. -/
def generate_openvm_streams (pdf_bytes : List Nat) (page : Nat)
    (lines : List (Nat × List Nat)) (pk_der_hash : List Nat) :
    Except StreamErr (List (List Nat)) :=
  if pk_der_hash.length ≠ 32 then .error .pkLength
  else
    let padding := (4 - pdf_bytes.length % 4) % 4
    let pdfStream := 1 :: (pdf_bytes ++ List.replicate padding 0)
    .ok ([pdfStream, valueStream (serWordsU8 page), valueStream (serWordsU32 lines.length)] ++
      lines.flatMap (fun nt => [valueStream (serWordsU32 nt.1), valueStream (serWordsStr nt.2)]) ++
      [valueStream (serWordsU32 32)] ++
      pk_der_hash.map (fun b => valueStream (serWordsU8 b)))

/-! ## Event tailer and projection

Model of `orderbook/src/blockchain/events.rs` together with the repository
methods it calls (`orderbook/src/db/orders.rs`, `orderbook/src/db/trades.rs`).
Each SQL statement commits on its own; there is no enclosing transaction.  A
handler therefore returns the state after its statements that did execute,
plus a flag for whether the handler returned Ok.  The per-event loops in
`process_*_events` log a failed handler and continue. -/

/-- The six contract events the tailer consumes, with the fields the handlers
decode.  Transaction hashes of the enclosing log are carried on the events
that read them. -/
inductive ChainEvent where
  | orderCreated (order_id seller token : String) (total_amount exchange_rate : Int)
      (alipay_id alipay_name : List Nat)
  | orderWithdrawn (order_id : String) (withdrawn_amount new_remaining_amount : Int)
  | tradeCreated (trade_id order_id buyer : String) (token_amount cny_amount : Int)
      (payment_nonce : List Nat) (expires_at : Int) (tx_hash : String)
  | proofSubmitted (trade_id proof_hash : String)
  | tradeSettled (trade_id : String) (tx_hash : String)
  | tradeExpired (trade_id order_id : String) (token_amount : Int)
deriving DecidableEq

/-- Projection state: the two tables plus the sync cursor
(`event_sync_state.last_synced_block`, mirrored in `EventListener.start_block`). -/
structure ProjState where
  orders : List DbOrder
  trades : List DbTrade
  cursor : Nat
deriving DecidableEq

/-- Look an order up by id. -/
def findOrder (orders : List DbOrder) (oid : String) : Option DbOrder :=
  orders.find? (fun o => o.order_id == oid)

/-- Look a trade up by id. -/
def findTrade (trades : List DbTrade) (tid : String) : Option DbTrade :=
  trades.find? (fun t => t.trade_id == tid)

/-- Model of `OrderRepository.create`: `INSERT .. ON CONFLICT ("orderId") DO
NOTHING`.  Always succeeds. -/
def orderCreate (orders : List DbOrder) (o : DbOrder) : List DbOrder :=
  if (findOrder orders o.order_id).isSome then orders else orders ++ [o]

/-- Model of `adjust_remaining_amount` (`orders.rs` lines 183 to 204): add the
signed delta to the remaining amount of the row; `none` models the
rows-affected-zero `OrderNotFound` error. -/
def adjust_remaining_amount (orders : List DbOrder) (oid : String) (delta : Int) :
    Option (List DbOrder) :=
  if (findOrder orders oid).isSome then
    some (orders.map (fun o =>
      if o.order_id == oid then { o with remaining_amount := o.remaining_amount + delta } else o))
  else none

/-- Model of `TradeRepository.create`: `INSERT .. ON CONFLICT ("tradeId") DO
NOTHING`.  Always succeeds. -/
def tradeCreate (trades : List DbTrade) (t : DbTrade) : List DbTrade :=
  if (findTrade trades t.trade_id).isSome then trades else trades ++ [t]

/-- Model of `update_status` (`trades.rs` lines 121 to 135): an unconditional
single-row `UPDATE` of the status column; `none` models the
rows-affected-zero `TradeNotFound` error. -/
def update_status (trades : List DbTrade) (tid : String) (new_status : Int) :
    Option (List DbTrade) :=
  if (findTrade trades tid).isSome then
    some (trades.map (fun t => if t.trade_id == tid then { t with status := new_status } else t))
  else none

/-- Model of `update_settlement_tx`: set the settlement hash of the row. -/
def update_settlement_tx (trades : List DbTrade) (tid : String) (tx : String) :
    Option (List DbTrade) :=
  if (findTrade trades tid).isSome then
    some (trades.map (fun t =>
      if t.trade_id == tid then { t with settlement_tx_hash := some tx } else t))
  else none

/-- Apply one decoded event to the projection, following the corresponding
`handle_*` function of `events.rs`.  The returned flag is whether the handler
returned Ok; the returned state keeps every statement that committed before a
failure, because each statement is its own transaction. -/
def applyEvent (st : ProjState) : ChainEvent → ProjState × Bool
  | .orderCreated oid seller token total rate aid aname =>
    ({ st with orders := orderCreate st.orders ⟨oid, seller, token, total, total, rate, aid, aname, 0⟩ },
      true)
  | .orderWithdrawn oid wd _newRem =>
    match adjust_remaining_amount st.orders oid (-wd) with
    | some os => ({ st with orders := os }, true)
    | none => (st, false)
  | .tradeCreated tid oid buyer amt cny nonce exp tx =>
    let st1 := { st with trades := tradeCreate st.trades ⟨tid, oid, buyer, amt, cny, nonce, exp, 0, some tx, none⟩ }
    match adjust_remaining_amount st1.orders oid (-amt) with
    | some os => ({ st1 with orders := os }, true)
    | none => (st1, false)
  | .proofSubmitted _ _ => (st, true)
  | .tradeSettled tid tx =>
    match update_status st.trades tid 1 with
    | none => (st, false)
    | some ts =>
      let st1 := { st with trades := ts }
      if tx == "" then (st1, true)
      else
        match update_settlement_tx st1.trades tid tx with
        | some ts2 => ({ st1 with trades := ts2 }, true)
        | none => (st1, true)
  | .tradeExpired tid oid amt =>
    match update_status st.trades tid 2 with
    | none => (st, false)
    | some ts =>
      let st1 := { st with trades := ts }
      match adjust_remaining_amount st1.orders oid amt with
      | some os => ({ st1 with orders := os }, true)
      | none => (st1, false)

/-- Apply a batch of events in order, discarding per-event failure flags as
the `process_*_events` loops do (a failed handler is logged and skipped). -/
def applyEvents (st : ProjState) (es : List ChainEvent) : ProjState :=
  es.foldl (fun s e => (applyEvent s e).1) st

/-- `BLOCKS_PER_QUERY` (`events.rs` line 25). -/
def BLOCKS_PER_QUERY : Nat := 8

/-- `MAX_REORG_DEPTH` (`events.rs` line 26). -/
def MAX_REORG_DEPTH : Nat := 2

/-- One tick of `sync_events` (`events.rs` lines 97 to 153).  `getLogs from
to` stands for the decoded logs of the block range, in the order the source
applies them (grouped by event signature in the listed order, block then log
index within a group).  Natural subtraction models `saturating_sub`.  The
cursor advance at the end is unconditional: per-event failures were already
swallowed inside the batch. -/
def sync_events (st : ProjState) (current_block : Nat)
    (getLogs : Nat → Nat → List ChainEvent) : ProjState :=
  let safe_block := current_block - MAX_REORG_DEPTH
  if st.cursor ≥ safe_block then st
  else
    let to_block := min (st.cursor + BLOCKS_PER_QUERY) safe_block
    let st1 := applyEvents st (getLogs st.cursor to_block)
    { st1 with cursor := to_block + 1 }

/-- Status of a trade in the projection, if the row exists. -/
def statusOf (st : ProjState) (tid : String) : Option Int :=
  (findTrade st.trades tid).map (fun t => t.status)

/-- Whether an event is a terminal (settled or expired) event for the given
trade id. -/
def terminalEventFor (tid : String) : ChainEvent → Bool
  | .tradeSettled t _ => t == tid
  | .tradeExpired t _ _ => t == tid
  | _ => false

/-- The status values of one trade along the application of an event list,
starting from the initial state. -/
def statusTrace (st : ProjState) (tid : String) : List ChainEvent → List (Option Int)
  | [] => [statusOf st tid]
  | e :: es => statusOf st tid :: statusTrace (applyEvent st e).1 tid es

/-- A legal status step: unchanged, row creation into Pending, or Pending to
a terminal status. -/
def statusStepOK (a b : Option Int) : Prop :=
  a = b ∨ (a = none ∧ b = some 0) ∨ (a = some 0 ∧ (b = some 1 ∨ b = some 2))

/-! ## Intent matcher

Model of `match_buy_intent` (`orderbook/src/api/matching.rs` lines 59 to
122).  The decimal strings of the rows parse losslessly, so the `ParseError`
branches of the source cannot fire in the embedding. -/

/-- Matcher failures (`MatchError` in the source, minus the parse branch). -/
inductive MatchError where
  | insufficientLiquidity (requested available : Int)
  | invalidAmount
deriving DecidableEq

/-- One fill of the plan. -/
structure Fill where
  order_id : String
  seller : String
  fill_amount : Int
  exchange_rate : Int
  alipay_id : List Nat
  alipay_name : List Nat
  token : String
deriving DecidableEq

/-- The matcher output. -/
structure MatchPlan where
  fills : List Fill
  total_filled : Int
  fully_fillable : Bool
deriving DecidableEq

/-- Build the fill record the loop pushes for an order. -/
def mkFill (o : DbOrder) (amt : Int) : Fill :=
  ⟨o.order_id, o.seller, amt, o.exchange_rate, o.alipay_id, o.alipay_name, o.token⟩

/-- The rate-ceiling test of the loop: with a ceiling, stop at a rate above
it; with none, never stop on rate. -/
def exceedsCeiling (max_rate : Option Int) (rate : Int) : Bool :=
  match max_rate with
  | some m => decide (m < rate)
  | none => false

/-- The matcher loop, accumulator style as the source mutates `fills` and
`remaining`: returns the fills pushed and the remaining desired amount. -/
def matchLoop (max_rate : Option Int) : List DbOrder → Int → List Fill → List Fill × Int
  | [], remaining, fills => (fills, remaining)
  | o :: rest, remaining, fills =>
    if exceedsCeiling max_rate o.exchange_rate then (fills, remaining)
    else if remaining ≤ 0 then (fills, remaining)
    else
      let fill_amount := min remaining o.remaining_amount
      matchLoop max_rate rest (remaining - fill_amount) (fills ++ [mkFill o fill_amount])

/-- Model of `match_buy_intent`: reject non-positive amounts, run the loop,
reject an empty fill list as insufficient liquidity with available 0, else
return the plan. -/
def match_buy_intent (orders : List DbOrder) (desired_amount : Int) (max_rate : Option Int) :
    Except MatchError MatchPlan :=
  if desired_amount ≤ 0 then .error .invalidAmount
  else
    let fr := matchLoop max_rate orders desired_amount []
    if fr.1.isEmpty then .error (.insufficientLiquidity desired_amount 0)
    else .ok ⟨fr.1, desired_amount - fr.2, fr.2 == 0⟩

/-- The traversal as the claim words it: walk the offers in order, stop at
the first offer whose rate exceeds the ceiling (or when the desired amount is
exhausted), and fill each visited offer by the minimum of its remaining
amount and the remaining desired amount. -/
def claimFills (max_rate : Option Int) : List DbOrder → Int → List Fill
  | [], _ => []
  | o :: rest, remaining_desired =>
    if exceedsCeiling max_rate o.exchange_rate then []
    else if remaining_desired ≤ 0 then []
    else
      mkFill o (min o.remaining_amount remaining_desired) ::
        claimFills max_rate rest (remaining_desired - min o.remaining_amount remaining_desired)

/-! ## Claim theorems: receipt facts -/

/-- Helper: a byte list whose members are ASCII has a character boundary at
every in-range index. -/
theorem isUtf8Boundary_of_ascii (bs : List Nat) (i : Nat)
    (hi : i < bs.length) (hascii : ∀ b ∈ bs, b < 128) : isUtf8Boundary bs i = true := by
  have hb : bs[i] < 128 := hascii _ (List.getElem_mem hi)
  simp [isUtf8Boundary, contByte, List.getD_eq_getElem bs 0 hi, hi]
  omega

/-- Helper: on an ASCII byte list of length 11 the mask succeeds with the
first three bytes, six asterisks, and the last two bytes. -/
theorem mask_alipay_id_ascii11 (id : List Nat) (hlen : id.length = 11)
    (hascii : ∀ b ∈ id, b < 128) :
    mask_alipay_id id = MaskOutcome.ok (id.take 3 ++ utf8 "******" ++ id.drop 9) := by
  have h3 : isUtf8Boundary id 3 = true := isUtf8Boundary_of_ascii id 3 (by omega) hascii
  have h9 : isUtf8Boundary id 9 = true := isUtf8Boundary_of_ascii id 9 (by omega) hascii
  simp [mask_alipay_id, hlen, h3, h9]

/-- Helper: the code formatting of the fiat amount agrees with the claim
wording. -/
theorem format_cny_amount_eq_spec (cents : Nat) :
    format_cny_amount cents = fiatFormattedSpec cents := by
  by_cases h : cents % 100 < 10 <;> simp [format_cny_amount, fiatFormattedSpec, pad2, h]

/-- C1: for every payee name, 11-character ASCII payee id, fiat cents value,
nonce and 32-byte pk DER hash, `compute_expected_hash` returns the double
SHA-256 of the claim: SHA256 of the verified byte 0x01, the pk hash, and the
SHA256 of the four length-tagged lines with the masked id and the formatted
amount. -/
theorem compute_expected_hash_matches_spec (name id : List Nat) (cents : Nat)
    (nonce pk : List Nat) (hlen : id.length = 11) (hascii : ∀ b ∈ id, b < 128)
    (hpk : pk.length = 32) :
    compute_expected_hash name id cents nonce pk =
      Except.ok (expectedHashSpec name id cents nonce pk) := by
  rw [compute_expected_hash, mask_alipay_id_ascii11 id hlen hascii]
  simp only [hpk]
  simp [expectedHashSpec, maskedPayeeIdSpec, hlen, ← format_cny_amount_eq_spec]

/-- C1 witness: the theorem instantiated at the scenario-3 inputs. -/
theorem compute_expected_hash_matches_spec_witness :
    (utf8 "13945908941").length = 11 ∧ (∀ b ∈ utf8 "13945908941", b < 128) ∧
    (List.replicate 32 0 : List Nat).length = 32 ∧
    compute_expected_hash (utf8 "张三") (utf8 "13945908941") 106000 (utf8 "18191527")
        (List.replicate 32 0) =
      Except.ok (expectedHashSpec (utf8 "张三") (utf8 "13945908941") 106000 (utf8 "18191527")
        (List.replicate 32 0)) :=
  ⟨by decide, by decide, by decide,
    compute_expected_hash_matches_spec _ _ _ _ _ (by decide) (by decide) (by decide)⟩

/-- C10 counterexample: an 11-character payee id whose characters are not
single bytes is rejected by `mask_alipay_id`, although the claim requires
every length-11 input to be masked; the code measures UTF-8 bytes, not
characters. -/
theorem mask_alipay_id_counterexample :
    ("一二三四五六七八九十百".data.length = 11) ∧
    (utf8 "一二三四五六七八九十百").length = 33 ∧
    mask_alipay_id (utf8 "一二三四五六七八九十百") = MaskOutcome.lengthErr :=
  ⟨by decide, by decide, by decide⟩

/-- C10 amended: `mask_alipay_id` errors exactly when the UTF-8 byte length
differs from 11; an 11-byte input is masked from its first 3 and last 2
bytes when byte indices 3 and 9 are character boundaries, and panics (Rust
byte-range indexing of `str`) otherwise. -/
theorem mask_alipay_id_amended (id : List Nat) :
    (mask_alipay_id id = MaskOutcome.lengthErr ↔ id.length ≠ 11) ∧
    (id.length = 11 → isUtf8Boundary id 3 = true → isUtf8Boundary id 9 = true →
      mask_alipay_id id = MaskOutcome.ok (id.take 3 ++ utf8 "******" ++ id.drop 9)) ∧
    (id.length = 11 → (isUtf8Boundary id 3 = false ∨ isUtf8Boundary id 9 = false) →
      mask_alipay_id id = MaskOutcome.panicked) := by
  refine ⟨?_, ?_, ?_⟩
  · by_cases h : id.length = 11
    · simp only [mask_alipay_id, h]
      by_cases h3 : isUtf8Boundary id 3
      · by_cases h9 : isUtf8Boundary id 9 <;> simp [h3, h9]
      · simp [h3]
    · simp [mask_alipay_id, h]
  · intro h h3 h9
    simp [mask_alipay_id, h, h3, h9]
  · intro h h39
    rcases h39 with h3 | h9
    · simp [mask_alipay_id, h, h3]
    · by_cases h3 : isUtf8Boundary id 3 <;> simp [mask_alipay_id, h, h3, h9]

/-- C10 witness for the amended claim: the ASCII payee id of the test suite
masks to 139 dash 41, an 11-byte CJK-prefixed id panics at byte 3, and a
short id errors. -/
theorem mask_alipay_id_amended_witness :
    ((utf8 "13945908941").length = 11 ∧
      mask_alipay_id (utf8 "13945908941") = MaskOutcome.ok (utf8 "139******41")) ∧
    ((utf8 "a中中中b").length = 11 ∧ isUtf8Boundary (utf8 "a中中中b") 3 = false ∧
      mask_alipay_id (utf8 "a中中中b") = MaskOutcome.panicked) ∧
    mask_alipay_id (utf8 "123") = MaskOutcome.lengthErr :=
  ⟨⟨by decide, by
      have h := (mask_alipay_id_amended (utf8 "13945908941")).2.1 (by decide) (by decide) (by decide)
      rw [h]; decide⟩,
   ⟨by decide, by decide, by
      exact (mask_alipay_id_amended (utf8 "a中中中b")).2.2 (by decide) (Or.inl (by decide))⟩,
   by exact (mask_alipay_id_amended (utf8 "123")).1.mpr (by decide)⟩

/-! ## Claim theorems: the hard-coded payment nonce -/

/-- A concrete order row used by the nonce and replay scenarios. -/
def orderO1 : DbOrder := ⟨"0xO1", "0xS1", "0xUSDC", 100, 100, 735, utf8 "13945908941", utf8 "张三", 0⟩

/-- A trade whose contract-chosen payment nonce is 11111111. -/
def tradeNonceA : DbTrade := ⟨"0xT1", "0xO1", "0xB1", 40, 29400, utf8 "11111111", 0, 0, none, none⟩

/-- A trade whose contract-chosen payment nonce is 22222222. -/
def tradeNonceB : DbTrade := ⟨"0xT2", "0xO1", "0xB2", 40, 29400, utf8 "22222222", 0, 0, none, none⟩

/-- C2: both proof-pipeline handlers ignore the payment nonce stored on the
trade and bind the hard-coded literal 18191527 as line L32, so two trades
with different stored nonces produce the same L32 line and the same expected
hash, contradicting the claim that the stored nonce is used. -/
theorem handlers_use_hardcoded_nonce :
    tradeNonceA.payment_nonce ≠ tradeNonceB.payment_nonce ∧
    handler_line32 tradeNonceA = HARDCODED_TEST_NONCE ∧
    handler_line32 tradeNonceB = HARDCODED_TEST_NONCE ∧
    handler_line32 tradeNonceA ≠ tradeNonceA.payment_nonce ∧
    validate_pdf_expected_hash orderO1 tradeNonceA 106000 (List.replicate 32 0) =
      validate_pdf_expected_hash orderO1 tradeNonceB 106000 (List.replicate 32 0) :=
  ⟨by decide, rfl, rfl, by decide, rfl⟩

/-! ## Claim theorems: event tailer arithmetic and cursor handling -/

/-- A TradeCreated event whose order id matches no projected order: the trade
insert succeeds, the following `adjust_remaining_amount` fails. -/
def evBadTrade : ChainEvent :=
  .tradeCreated "0xT9" "0xMISSING" "0xB9" 40 29400 (utf8 "18191527") 0 "0xtx9"

/-- A TradeCreated event for reservation R1 against order O1 with token
amount 40. -/
def evTradeR1 : ChainEvent :=
  .tradeCreated "0xR1" "0xO1" "0xB1" 40 29400 (utf8 "11111111") 0 "0xtx1"

/-- C4 counterexample: with head 10 the safe block is 8, and a cursor already
at 8 is not beyond it, yet the tick returns without applying anything; and
with head 20 and cursor 0 the batch ends at block 8 (nine blocks) and the
cursor lands on 9, not on the 8 the claim computes from batch size 8. -/
theorem sync_events_claim_counterexample :
    (sync_events ⟨[], [], 8⟩ 10 (fun _ _ => []) = ⟨[], [], 8⟩ ∧ ¬ (8 > 10 - MAX_REORG_DEPTH)) ∧
    ((sync_events ⟨[], [], 0⟩ 20 (fun _ _ => [])).cursor = 9 ∧
      min (0 + BLOCKS_PER_QUERY - 1) (20 - MAX_REORG_DEPTH) + 1 = 8) := by
  refine ⟨⟨by decide, by decide⟩, by decide, by decide⟩

/-- C4 amended: one tick returns the state unchanged exactly when the cursor
has reached safe = head saturating-minus 2; otherwise it applies the logs of
blocks cursor through min (cursor + 8) safe and sets the cursor one past
that block. -/
theorem sync_events_amended (st : ProjState) (head : Nat)
    (getLogs : Nat → Nat → List ChainEvent) :
    (head - MAX_REORG_DEPTH ≤ st.cursor → sync_events st head getLogs = st) ∧
    (st.cursor < head - MAX_REORG_DEPTH →
      sync_events st head getLogs =
        { applyEvents st
            (getLogs st.cursor (min (st.cursor + BLOCKS_PER_QUERY) (head - MAX_REORG_DEPTH))) with
          cursor := min (st.cursor + BLOCKS_PER_QUERY) (head - MAX_REORG_DEPTH) + 1 }) := by
  constructor
  · intro h
    simp [sync_events, h]
  · intro h
    simp [sync_events, show ¬ (head - MAX_REORG_DEPTH ≤ st.cursor) from by omega]

/-- C4 witness: an idle tick at cursor 20 with head 10, and a live tick from
cursor 0 with head 12 landing the cursor on 9. -/
theorem sync_events_amended_witness :
    (sync_events ⟨[], [], 20⟩ 10 (fun _ _ => []) = ⟨[], [], 20⟩) ∧
    (sync_events ⟨[], [], 0⟩ 12 (fun _ _ => []) = ⟨[], [], 9⟩) := by
  constructor
  · exact (sync_events_amended ⟨[], [], 20⟩ 10 (fun _ _ => [])).1 (by decide)
  · have h := (sync_events_amended ⟨[], [], 0⟩ 12 (fun _ _ => [])).2 (by decide)
    rw [h]; decide

/-- C3 counterexample: a batch containing a TradeCreated referencing an
unknown order fails inside its handler, yet the tick still inserts the trade
row and advances the cursor past the batch; nothing is rolled back. -/
theorem sync_cursor_advances_despite_failure :
    (applyEvent ⟨[], [], 0⟩ evBadTrade).2 = false ∧
    (sync_events ⟨[], [], 0⟩ 12 (fun _ _ => [evBadTrade])).cursor = 9 ∧
    (sync_events ⟨[], [], 0⟩ 12 (fun _ _ => [evBadTrade])).trades ≠ [] := by
  refine ⟨by decide, by decide, by decide⟩

/-- C3 amended: whenever a tick processes a batch, the cursor is set to the
end of the batch plus one unconditionally; per-event failures are swallowed
inside the batch, each statement commits on its own, and no rollback exists. -/
theorem sync_cursor_always_advances (st : ProjState) (head : Nat)
    (getLogs : Nat → Nat → List ChainEvent) (h : st.cursor < head - MAX_REORG_DEPTH) :
    (sync_events st head getLogs).cursor =
      min (st.cursor + BLOCKS_PER_QUERY) (head - MAX_REORG_DEPTH) + 1 := by
  simp [sync_events, show ¬ (head - MAX_REORG_DEPTH ≤ st.cursor) from by omega]

/-- C3 witness: the failing batch of the counterexample still advances the
cursor to 9. -/
theorem sync_cursor_always_advances_witness :
    (0 : Nat) < 12 - MAX_REORG_DEPTH ∧
    (sync_events ⟨[], [], 0⟩ 12 (fun _ _ => [evBadTrade])).cursor =
      min (0 + BLOCKS_PER_QUERY) (12 - MAX_REORG_DEPTH) + 1 :=
  ⟨by decide, sync_cursor_always_advances ⟨[], [], 0⟩ 12 (fun _ _ => [evBadTrade]) (by decide)⟩

/-! ## Claim theorems: event replay -/

/-- Helper: inserting the same order row twice with conflict-do-nothing
equals inserting it once. -/
theorem orderCreate_idem (os : List DbOrder) (o : DbOrder) :
    orderCreate (orderCreate os o) o = orderCreate os o := by
  unfold orderCreate findOrder
  by_cases h : (os.find? (fun x => x.order_id == o.order_id)).isSome
  · simp [h]
  · simp [h, List.find?_append]

/-- C5 counterexample: replaying the ReservationCreated event for R1 (token
amount 40) against order O1 with remaining 100 leaves one reservation row but
drives remaining to 20, because the conflict-free duplicate insert does not
stop the second `adjust_remaining_amount`; the claim expects 60. -/
theorem replay_trade_created_counterexample :
    ((applyEvent (applyEvent ⟨[orderO1], [], 0⟩ evTradeR1).1 evTradeR1).1.trades.length = 1) ∧
    ((findOrder (applyEvent (applyEvent ⟨[orderO1], [], 0⟩ evTradeR1).1 evTradeR1).1.orders
        "0xO1").map (fun o => o.remaining_amount) = some 20) ∧
    ((findOrder (applyEvent ⟨[orderO1], [], 0⟩ evTradeR1).1.orders
        "0xO1").map (fun o => o.remaining_amount) = some 60) ∧
    (applyEvent (applyEvent ⟨[orderO1], [], 0⟩ evTradeR1).1 evTradeR1).1 ≠
      (applyEvent ⟨[orderO1], [], 0⟩ evTradeR1).1 := by
  decide

/-- C5 amended: replaying OfferCreatedAndLocked is idempotent on the
projection, and replaying ReservationCreated inserts no second row for R1
but re-applies the remaining-amount delta: O1 ends at 20, not 60.  Event
deduplication rests solely on the tailer not refetching blocks. -/
theorem replay_amended :
    (∀ (st : ProjState) (oid seller token : String) (total rate : Int) (aid aname : List Nat),
      applyEvent (applyEvent st (.orderCreated oid seller token total rate aid aname)).1
          (.orderCreated oid seller token total rate aid aname) =
        applyEvent st (.orderCreated oid seller token total rate aid aname)) ∧
    ((applyEvent (applyEvent ⟨[orderO1], [], 0⟩ evTradeR1).1 evTradeR1).1.trades =
        [⟨"0xR1", "0xO1", "0xB1", 40, 29400, utf8 "11111111", 0, 0, some "0xtx1", none⟩] ∧
      (findOrder (applyEvent (applyEvent ⟨[orderO1], [], 0⟩ evTradeR1).1 evTradeR1).1.orders
          "0xO1").map (fun o => o.remaining_amount) = some 20) := by
  constructor
  · intro st oid seller token total rate aid aname
    simp [applyEvent, orderCreate_idem]
  · decide

/-! ## Claim theorems: reservation status transitions -/

/-- Status of a trade id inside a bare trade table. -/
def tradeStatus (trades : List DbTrade) (tid : String) : Option Int :=
  (findTrade trades tid).map (fun t => t.status)

/-- Helper: finding a trade in a mapped table, when the map preserves trade
ids. -/
theorem findTrade_map_pres (l : List DbTrade) (f : DbTrade → DbTrade)
    (hf : ∀ t, (f t).trade_id = t.trade_id) (tid : String) :
    findTrade (l.map f) tid = (findTrade l tid).map f := by
  unfold findTrade
  rw [List.find?_map]
  have he : ((fun t : DbTrade => t.trade_id == tid) ∘ f) =
      (fun t : DbTrade => t.trade_id == tid) := by
    funext t
    simp [hf]
  rw [he]

/-- Helper: a found trade matches the looked-up id. -/
theorem findTrade_id (l : List DbTrade) (tid : String) (t : DbTrade)
    (h : findTrade l tid = some t) : t.trade_id = tid := by
  have := List.find?_some h
  exact eq_of_beq this

/-- Helper: a successful `update_status` found the row. -/
theorem update_status_isSome (l : List DbTrade) (tid : String) (s : Int) (ts : List DbTrade)
    (h : update_status l tid s = some ts) : (findTrade l tid).isSome := by
  unfold update_status at h
  by_cases hs : (findTrade l tid).isSome
  · exact hs
  · simp [hs] at h

/-- Helper: after a successful `update_status` the row carries the new
status. -/
theorem tradeStatus_update_status_self (l : List DbTrade) (tid : String) (s : Int)
    (ts : List DbTrade) (h : update_status l tid s = some ts) : tradeStatus ts tid = some s := by
  have hsome := update_status_isSome l tid s ts h
  unfold update_status at h
  rw [if_pos hsome] at h
  obtain ⟨t, ht⟩ := Option.isSome_iff_exists.mp hsome
  have hid := findTrade_id l tid t ht
  injection h with h
  subst h
  unfold tradeStatus
  rw [findTrade_map_pres]
  · rw [ht]
    simp [hid]
  · intro x
    by_cases hx : x.trade_id == tid <;> simp [hx]

/-- Helper: `update_status` of another id leaves the status unchanged. -/
theorem tradeStatus_update_status_other (l : List DbTrade) (tid0 : String) (s : Int)
    (ts : List DbTrade) (tid : String) (h : update_status l tid0 s = some ts)
    (hne : tid ≠ tid0) : tradeStatus ts tid = tradeStatus l tid := by
  unfold update_status at h
  by_cases hs : (findTrade l tid0).isSome
  · rw [if_pos hs] at h
    injection h with h
    subst h
    unfold tradeStatus
    rw [findTrade_map_pres]
    · cases hft : findTrade l tid with
      | none => simp
      | some t =>
        have hid := findTrade_id l tid t hft
        simp [hid, hne]
    · intro x
      by_cases hx : x.trade_id == tid0 <;> simp [hx]
  · simp [hs] at h

/-- Helper: `update_settlement_tx` never changes any status. -/
theorem tradeStatus_update_settlement (l : List DbTrade) (tid0 tx : String)
    (ts : List DbTrade) (tid : String) (h : update_settlement_tx l tid0 tx = some ts) :
    tradeStatus ts tid = tradeStatus l tid := by
  unfold update_settlement_tx at h
  by_cases hs : (findTrade l tid0).isSome
  · rw [if_pos hs] at h
    injection h with h
    subst h
    unfold tradeStatus
    rw [findTrade_map_pres]
    · cases hft : findTrade l tid with
      | none => simp
      | some t =>
        simp only [Option.map_some']
        split <;> rfl
    · intro x
      by_cases hx : x.trade_id == tid0 <;> simp [hx]
  · simp [hs] at h

/-- Helper: conflict-free trade insertion either changes nothing or creates
the looked-up id with the inserted status. -/
theorem tradeStatus_tradeCreate (l : List DbTrade) (t : DbTrade) (tid : String) :
    tradeStatus (tradeCreate l t) tid = tradeStatus l tid ∨
      (tradeStatus l tid = none ∧ tradeStatus (tradeCreate l t) tid = some t.status) := by
  unfold tradeCreate
  by_cases hex : (findTrade l t.trade_id).isSome
  · left
    rw [if_pos hex]
  · rw [if_neg hex]
    unfold tradeStatus findTrade
    rw [List.find?_append]
    cases hft : List.find? (fun x => x.trade_id == tid) l with
    | some x => left; simp
    | none =>
      by_cases hid : t.trade_id == tid
      · right
        simp [hft, hid]
      · left
        simp [hft, hid]

/-- Helper: a non-terminal event either leaves the status of a trade
unchanged or creates its row in Pending. -/
theorem statusStep_nonterminal (st : ProjState) (e : ChainEvent) (tid : String)
    (h : terminalEventFor tid e = false) :
    statusOf (applyEvent st e).1 tid = statusOf st tid ∨
      (statusOf st tid = none ∧ statusOf (applyEvent st e).1 tid = some 0) := by
  cases e with
  | orderCreated oid seller token total rate aid aname => left; rfl
  | orderWithdrawn oid wd nr =>
    left
    simp only [applyEvent]
    cases adjust_remaining_amount st.orders oid (-wd) <;> rfl
  | tradeCreated tid0 oid buyer amt cny nonce exp tx =>
    have key : statusOf (applyEvent st (.tradeCreated tid0 oid buyer amt cny nonce exp tx)).1 tid =
        tradeStatus (tradeCreate st.trades ⟨tid0, oid, buyer, amt, cny, nonce, exp, 0, some tx, none⟩) tid := by
      simp only [applyEvent]
      cases adjust_remaining_amount st.orders oid (-amt) <;> rfl
    rw [key]
    exact tradeStatus_tradeCreate st.trades ⟨tid0, oid, buyer, amt, cny, nonce, exp, 0, some tx, none⟩ tid
  | proofSubmitted a b => left; rfl
  | tradeSettled tid0 tx =>
    left
    have hne : tid ≠ tid0 := by
      simp [terminalEventFor] at h
      exact fun he => h (he.symm)
    simp only [applyEvent]
    cases hupd : update_status st.trades tid0 1 with
    | none => rfl
    | some ts =>
      by_cases htx : tx == ""
      · simp only [htx, if_true]
        exact tradeStatus_update_status_other st.trades tid0 1 ts tid hupd hne
      · simp only [htx, Bool.false_eq_true, if_false]
        cases hset : update_settlement_tx ts tid0 tx with
        | none =>
          exact tradeStatus_update_status_other st.trades tid0 1 ts tid hupd hne
        | some ts2 =>
          have h1 := tradeStatus_update_settlement ts tid0 tx ts2 tid hset
          have h2 := tradeStatus_update_status_other st.trades tid0 1 ts tid hupd hne
          exact h1.trans h2
  | tradeExpired tid0 oid amt =>
    left
    have hne : tid ≠ tid0 := by
      simp [terminalEventFor] at h
      exact fun he => h (he.symm)
    simp only [applyEvent]
    cases hupd : update_status st.trades tid0 2 with
    | none => rfl
    | some ts =>
      have h2 := tradeStatus_update_status_other st.trades tid0 2 ts tid hupd hne
      cases adjust_remaining_amount st.orders oid amt <;> exact h2

/-- Helper: a terminal event either leaves the status unchanged (row absent)
or moves an existing row to Settled or Expired. -/
theorem statusStep_terminal (st : ProjState) (e : ChainEvent) (tid : String)
    (h : terminalEventFor tid e = true) :
    statusOf (applyEvent st e).1 tid = statusOf st tid ∨
      ((statusOf st tid).isSome ∧
        (statusOf (applyEvent st e).1 tid = some 1 ∨ statusOf (applyEvent st e).1 tid = some 2)) := by
  cases e with
  | orderCreated oid seller token total rate aid aname => simp [terminalEventFor] at h
  | orderWithdrawn oid wd nr => simp [terminalEventFor] at h
  | tradeCreated tid0 oid buyer amt cny nonce exp tx => simp [terminalEventFor] at h
  | proofSubmitted a b => simp [terminalEventFor] at h
  | tradeSettled tid0 tx =>
    have hid : tid0 = tid := by
      simp [terminalEventFor] at h
      exact h
    subst hid
    simp only [applyEvent]
    cases hupd : update_status st.trades tid0 1 with
    | none => left; rfl
    | some ts =>
      right
      constructor
      · have := update_status_isSome st.trades tid0 1 ts hupd
        simpa [statusOf, Option.isSome_map] using this
      · left
        have hself := tradeStatus_update_status_self st.trades tid0 1 ts hupd
        by_cases htx : tx == ""
        · simpa [htx] using hself
        · simp only [htx, Bool.false_eq_true, if_false]
          cases hset : update_settlement_tx ts tid0 tx with
          | none => exact hself
          | some ts2 =>
            have h1 := tradeStatus_update_settlement ts tid0 tx ts2 tid0 hset
            exact h1.trans hself
  | tradeExpired tid0 oid amt =>
    have hid : tid0 = tid := by
      simp [terminalEventFor] at h
      exact h
    subst hid
    simp only [applyEvent]
    cases hupd : update_status st.trades tid0 2 with
    | none => left; rfl
    | some ts =>
      right
      constructor
      · have := update_status_isSome st.trades tid0 2 ts hupd
        simpa [statusOf, Option.isSome_map] using this
      · right
        have hself := tradeStatus_update_status_self st.trades tid0 2 ts hupd
        cases adjust_remaining_amount st.orders oid amt <;> exact hself

/-- Helper: the status trace starts at the status in the initial state. -/
theorem statusTrace_head (st : ProjState) (tid : String) (es : List ChainEvent) :
    (statusTrace st tid es).head? = some (statusOf st tid) := by
  cases es <;> rfl

/-- Helper: with no terminal event for the trade in the list, every status
step is legal from any starting state. -/
theorem statusTrace_chain_nonterminal (es : List ChainEvent) (st : ProjState) (tid : String)
    (h : ∀ e ∈ es, terminalEventFor tid e = false) :
    List.Chain' statusStepOK (statusTrace st tid es) := by
  induction es generalizing st with
  | nil => exact List.chain'_singleton _
  | cons e es ih =>
    rw [statusTrace, List.chain'_cons']
    constructor
    · intro y hy
      rw [statusTrace_head] at hy
      simp only [Option.mem_def, Option.some.injEq] at hy
      subst hy
      rcases statusStep_nonterminal st e tid (h e (List.mem_cons_self e es)) with hs | ⟨hn, hs⟩
      · exact Or.inl hs.symm
      · exact Or.inr (Or.inl ⟨hn, hs⟩)
    · exact ih _ (fun x hx => h x (List.mem_cons_of_mem e hx))

/-- C9 counterexample: after creating reservation R1 (Pending, status 0), a
TradeSettled event moves it to 1, and a following TradeExpired event moves it
to 2: an explicit Settled to Expired transition, which the claim forbids. -/
theorem settled_then_expired_counterexample :
    (statusOf (applyEvent ⟨[orderO1], [], 0⟩ evTradeR1).1 "0xR1" = some 0) ∧
    (statusOf (applyEvent (applyEvent ⟨[orderO1], [], 0⟩ evTradeR1).1
        (.tradeSettled "0xR1" "0xst1")).1 "0xR1" = some 1) ∧
    (statusOf (applyEvent (applyEvent (applyEvent ⟨[orderO1], [], 0⟩ evTradeR1).1
        (.tradeSettled "0xR1" "0xst1")).1 (.tradeExpired "0xR1" "0xO1" 40)).1 "0xR1" = some 2) ∧
    ¬ statusStepOK (some 1) (some 2) := by
  refine ⟨by decide, by decide, by decide, ?_⟩
  intro h
  rcases h with h | ⟨h, _⟩ | ⟨h, _⟩ <;> simp at h

/-- C9 amended: `update_status` is an unconditional UPDATE, so a terminal
event always writes its status; but provided the applied event sequence
carries at most one terminal event for a reservation (as the contract emits)
and the reservation starts absent or Pending, every status step is inside
the set: unchanged, created Pending, Pending to Settled, Pending to
Expired. -/
theorem status_transitions_amended (es : List ChainEvent) (st : ProjState) (tid : String)
    (hpend : statusOf st tid = none ∨ statusOf st tid = some 0)
    (hone : es.countP (terminalEventFor tid) ≤ 1) :
    List.Chain' statusStepOK (statusTrace st tid es) := by
  induction es generalizing st with
  | nil => exact List.chain'_singleton _
  | cons e es ih =>
    rw [statusTrace, List.chain'_cons']
    by_cases ht : terminalEventFor tid e
    · constructor
      · intro y hy
        rw [statusTrace_head] at hy
        simp only [Option.mem_def, Option.some.injEq] at hy
        subst hy
        rcases statusStep_terminal st e tid ht with hs | ⟨hsome, hs⟩
        · exact Or.inl hs.symm
        · rcases hpend with hn | h0
          · rw [hn] at hsome
            simp at hsome
          · exact Or.inr (Or.inr ⟨h0, hs⟩)
      · have hz : ∀ x ∈ es, terminalEventFor tid x = false := by
          rw [List.countP_cons] at hone
          simp [ht] at hone
          exact hone
        exact statusTrace_chain_nonterminal es _ tid hz
    · have ht' : terminalEventFor tid e = false := by
        simpa using ht
      constructor
      · intro y hy
        rw [statusTrace_head] at hy
        simp only [Option.mem_def, Option.some.injEq] at hy
        subst hy
        rcases statusStep_nonterminal st e tid ht' with hs | ⟨hn, hs⟩
        · exact Or.inl hs.symm
        · exact Or.inr (Or.inl ⟨hn, hs⟩)
      · have hpend' : statusOf (applyEvent st e).1 tid = none ∨
            statusOf (applyEvent st e).1 tid = some 0 := by
          rcases statusStep_nonterminal st e tid ht' with hs | ⟨hn, hs⟩
          · rw [hs]
            exact hpend
          · exact Or.inr hs
        have hone' : es.countP (terminalEventFor tid) ≤ 1 := by
          rw [List.countP_cons] at hone
          simpa [ht'] using hone
        exact ih _ hpend' hone'

/-- C9 witness for the amended claim: a pending R1 settled by a single
terminal event walks the legal trace. -/
theorem status_transitions_amended_witness :
    (statusOf (applyEvent ⟨[orderO1], [], 0⟩ evTradeR1).1 "0xR1" = none ∨
      statusOf (applyEvent ⟨[orderO1], [], 0⟩ evTradeR1).1 "0xR1" = some 0) ∧
    ([ChainEvent.tradeSettled "0xR1" "0xst1"].countP (terminalEventFor "0xR1") ≤ 1) ∧
    List.Chain' statusStepOK (statusTrace (applyEvent ⟨[orderO1], [], 0⟩ evTradeR1).1 "0xR1"
      [ChainEvent.tradeSettled "0xR1" "0xst1"]) :=
  ⟨Or.inr (by decide), by decide,
    status_transitions_amended _ _ _ (Or.inr (by decide)) (by decide)⟩

/-! ## Claim theorems: intent matcher -/


/-- Decidable equality for `Except` results, so concrete matcher outcomes can
be checked by evaluation. -/
instance instDecEqExcept {e a : Type} [DecidableEq e] [DecidableEq a] : DecidableEq (Except e a)
  | .error x, .error y =>
    if h : x = y then .isTrue (congrArg Except.error h)
    else .isFalse (fun hh => h (Except.error.inj hh))
  | .error _, .ok _ => .isFalse (fun hh => Except.noConfusion hh)
  | .ok _, .error _ => .isFalse (fun hh => Except.noConfusion hh)
  | .ok x, .ok y =>
    if h : x = y then .isTrue (congrArg Except.ok h)
    else .isFalse (fun hh => h (Except.ok.inj hh))

/-- Total token amount of a fill list. -/
def sumFills (fs : List Fill) : Int := (fs.map (fun f => f.fill_amount)).sum

/-- Helper: the accumulator loop of the matcher computes exactly the fills of
the claim traversal, and the remaining desired amount drops by their sum. -/
theorem matchLoop_eq_claimFills (max_rate : Option Int) (orders : List DbOrder)
    (remaining : Int) (acc : List Fill) :
    matchLoop max_rate orders remaining acc =
      (acc ++ claimFills max_rate orders remaining,
        remaining - sumFills (claimFills max_rate orders remaining)) := by
  induction orders generalizing remaining acc with
  | nil => simp [matchLoop, claimFills, sumFills]
  | cons o rest ih =>
    by_cases hc : exceedsCeiling max_rate o.exchange_rate
    · simp [matchLoop, claimFills, hc, sumFills]
    · by_cases hr : remaining ≤ 0
      · simp [matchLoop, claimFills, hc, hr, sumFills]
      · rw [matchLoop, claimFills]
        simp only [hc, Bool.false_eq_true, if_false, hr, ite_false]
        rw [ih, Prod.mk.injEq]
        refine ⟨?_, ?_⟩
        · rw [min_comm remaining o.remaining_amount, List.append_assoc]
          rfl
        · rw [min_comm remaining o.remaining_amount]
          simp [sumFills, mkFill]
          ring

/-- Helper: every fill of the claim traversal over active offers is strictly
positive. -/
theorem claimFills_pos (max_rate : Option Int) (orders : List DbOrder) (remaining : Int)
    (hpos : ∀ o ∈ orders, 0 < o.remaining_amount) :
    ∀ f ∈ claimFills max_rate orders remaining, 0 < f.fill_amount := by
  induction orders generalizing remaining with
  | nil => simp [claimFills]
  | cons o rest ih =>
    intro f hf
    rw [claimFills] at hf
    by_cases hc : exceedsCeiling max_rate o.exchange_rate
    · simp [hc] at hf
    · by_cases hr : remaining ≤ 0
      · simp [hc, hr] at hf
      · simp only [hc, Bool.false_eq_true, if_false, hr, ite_false, List.mem_cons] at hf
        rcases hf with hf | hf
        · subst hf
          have ho := hpos o (List.mem_cons_self o rest)
          have hrem : (0 : Int) < remaining := by omega
          simp [mkFill]
          exact ⟨ho, hrem⟩
        · exact ih (remaining - min o.remaining_amount remaining)
            (fun x hx => hpos x (List.mem_cons_of_mem o hx)) f hf

/-- Three offers of the spec scenario 2: 50M at 730, 60M at 735, 100M at
750, in rate order. -/
def offerM1 : DbOrder := ⟨"0xM1", "0xSA", "0xUSDC", 50000000, 50000000, 730, utf8 "11111111111", utf8 "甲", 1⟩

/-- Second scenario offer. -/
def offerM2 : DbOrder := ⟨"0xM2", "0xSB", "0xUSDC", 60000000, 60000000, 735, utf8 "22222222222", utf8 "乙", 2⟩

/-- Third scenario offer, above the 740 ceiling. -/
def offerM3 : DbOrder := ⟨"0xM3", "0xSC", "0xUSDC", 100000000, 100000000, 750, utf8 "33333333333", utf8 "丙", 3⟩

/-- C7: a successful plan lists exactly the fills of the claim traversal
(in order, stopping at the first offer above the ceiling, each fill the
minimum of offer remaining and remaining desired), every fill is strictly
positive, the total is their sum, and full fillability is equality with the
desired amount; the scenario-2 offers yield the fills of the claim. -/
theorem match_buy_intent_plan (orders : List DbOrder) (desired : Int) (max_rate : Option Int)
    (plan : MatchPlan) (hpos : ∀ o ∈ orders, 0 < o.remaining_amount)
    (hok : match_buy_intent orders desired max_rate = .ok plan) :
    (plan.fills = claimFills max_rate orders desired ∧
      (∀ f ∈ plan.fills, 0 < f.fill_amount) ∧
      plan.total_filled = sumFills plan.fills ∧
      (plan.fully_fillable = true ↔ plan.total_filled = desired)) ∧
    match_buy_intent [offerM1, offerM2, offerM3] 200000000 (some 740) =
      .ok ⟨[mkFill offerM1 50000000, mkFill offerM2 60000000], 110000000, false⟩ := by
  constructor
  · rw [match_buy_intent] at hok
    by_cases hd : desired ≤ 0
    · simp [hd] at hok
    · simp only [hd, ite_false] at hok
      rw [matchLoop_eq_claimFills] at hok
      simp only [List.nil_append] at hok
      by_cases hemp : (claimFills max_rate orders desired).isEmpty
      · simp [hemp] at hok
      · simp only [hemp, Bool.false_eq_true, if_false, Except.ok.injEq] at hok
        subst hok
        refine ⟨rfl, claimFills_pos max_rate orders desired hpos, ?_, ?_⟩
        · dsimp only
          omega
        · dsimp only
          rw [beq_iff_eq]
          omega
  · decide

/-- C7 witness: the theorem at the scenario-2 inputs. -/
theorem match_buy_intent_plan_witness :
    (∀ o ∈ [offerM1, offerM2, offerM3], 0 < o.remaining_amount) ∧
    match_buy_intent [offerM1, offerM2, offerM3] 200000000 (some 740) =
      .ok ⟨[mkFill offerM1 50000000, mkFill offerM2 60000000], 110000000, false⟩ ∧
    ((⟨[mkFill offerM1 50000000, mkFill offerM2 60000000], 110000000, false⟩ : MatchPlan).fills =
        claimFills (some 740) [offerM1, offerM2, offerM3] 200000000 ∧
      (∀ f ∈ (⟨[mkFill offerM1 50000000, mkFill offerM2 60000000], 110000000, false⟩ : MatchPlan).fills,
        0 < f.fill_amount) ∧
      (⟨[mkFill offerM1 50000000, mkFill offerM2 60000000], 110000000, false⟩ : MatchPlan).total_filled =
        sumFills (⟨[mkFill offerM1 50000000, mkFill offerM2 60000000], 110000000, false⟩ : MatchPlan).fills ∧
      ((⟨[mkFill offerM1 50000000, mkFill offerM2 60000000], 110000000, false⟩ : MatchPlan).fully_fillable = true ↔
        (⟨[mkFill offerM1 50000000, mkFill offerM2 60000000], 110000000, false⟩ : MatchPlan).total_filled = 200000000)) :=
  ⟨by decide, by decide,
    (match_buy_intent_plan [offerM1, offerM2, offerM3] 200000000 (some 740)
      ⟨[mkFill offerM1 50000000, mkFill offerM2 60000000], 110000000, false⟩
      (by decide) (by decide)).1⟩

/-- C8: non-positive desired amounts fail with InvalidAmount; with a
positive desired amount the matcher fails, with InsufficientLiquidity
carrying the request and available 0, exactly when the traversal fills
nothing; a nonempty traversal is a success whose plan marks partial fills by
fully_fillable false rather than an error. -/
theorem match_buy_intent_errors (orders : List DbOrder) (desired : Int) (max_rate : Option Int)
    (hd : 0 < desired) :
    (∀ d : Int, d ≤ 0 → match_buy_intent orders d max_rate = .error .invalidAmount) ∧
    (match_buy_intent orders desired max_rate =
        .error (.insufficientLiquidity desired 0) ↔
      claimFills max_rate orders desired = []) ∧
    (claimFills max_rate orders desired ≠ [] →
      ∃ plan, match_buy_intent orders desired max_rate = .ok plan ∧
        plan.fills = claimFills max_rate orders desired ∧
        (plan.fully_fillable = false ↔ plan.total_filled ≠ desired)) := by
  refine ⟨?_, ?_, ?_⟩
  · intro d hdle
    simp [match_buy_intent, hdle]
  · rw [match_buy_intent]
    simp only [show ¬ desired ≤ 0 from by omega, ite_false]
    rw [matchLoop_eq_claimFills]
    simp only [List.nil_append]
    by_cases hemp : (claimFills max_rate orders desired).isEmpty
    · simp only [hemp, if_true]
      simp [List.isEmpty_iff.mp hemp]
    · simp only [hemp, Bool.false_eq_true, if_false]
      constructor
      · intro h
        simp at h
      · intro h
        rw [h] at hemp
        simp at hemp
  · intro hne
    rw [match_buy_intent]
    simp only [show ¬ desired ≤ 0 from by omega, ite_false]
    rw [matchLoop_eq_claimFills]
    simp only [List.nil_append]
    have hemp : (claimFills max_rate orders desired).isEmpty = false := by
      simpa using hne
    simp only [hemp, Bool.false_eq_true, if_false]
    refine ⟨_, rfl, rfl, ?_⟩
    dsimp only
    rw [beq_eq_false_iff_ne]
    omega

/-- C8 witness: desired 0 is InvalidAmount, an empty book is insufficient
liquidity, and the partial scenario-2 fill succeeds with fully_fillable
false. -/
theorem match_buy_intent_errors_witness :
    (0 : Int) < 200000000 ∧
    match_buy_intent [] (-3) none = .error .invalidAmount ∧
    (match_buy_intent [] 200000000 (some 740) =
        .error (.insufficientLiquidity 200000000 0) ↔
      claimFills (some 740) [] 200000000 = []) ∧
    (claimFills (some 740) [offerM1, offerM2, offerM3] 200000000 ≠ [] →
      ∃ plan, match_buy_intent [offerM1, offerM2, offerM3] 200000000 (some 740) = .ok plan ∧
        plan.fills = claimFills (some 740) [offerM1, offerM2, offerM3] 200000000 ∧
        (plan.fully_fillable = false ↔ plan.total_filled ≠ 200000000)) :=
  ⟨by decide,
    (match_buy_intent_errors [] 200000000 (some 740) (by decide)).1 (-3) (by decide),
    (match_buy_intent_errors [] 200000000 (some 740) (by decide)).2.1,
    (match_buy_intent_errors [offerM1, offerM2, offerM3] 200000000 (some 740) (by decide)).2.2⟩

/-! ## Claim theorems: input-stream count -/

/-- C6: for every receipt blob, page byte, four-line list and 32-byte pk DER
hash, the stream encoder succeeds and emits exactly 44 streams, which is
3 + 2 times the line count + 1 + 32. -/
theorem generate_openvm_streams_count (pdf_bytes : List Nat) (page : Nat)
    (lines : List (Nat × List Nat)) (pk : List Nat)
    (hlines : lines.length = 4) (hpk : pk.length = 32) :
    ∃ out, generate_openvm_streams pdf_bytes page lines pk = Except.ok out ∧
      out.length = 44 ∧ 44 = 3 + 2 * lines.length + 1 + 32 := by
  obtain ⟨l1, l2, l3, l4, hls⟩ : ∃ a b c d, lines = [a, b, c, d] := by
    match lines, hlines with
    | [a, b, c, d], _ => exact ⟨a, b, c, d, rfl⟩
  subst hls
  rw [generate_openvm_streams, if_neg (by omega : ¬ pk.length ≠ 32)]
  refine ⟨_, rfl, ?_, ?_⟩
  · simp [hpk]
  · rfl

/-- C6 witness: the theorem at the four scenario lines and the zero pk
hash. -/
theorem generate_openvm_streams_count_witness :
    ([( (20 : Nat), utf8 "账户名：张三"), (21, utf8 "账号：139******41"),
        (29, utf8 "小写：1060.00"), (32, utf8 "18191527")].length = 4) ∧
    ((List.replicate 32 0 : List Nat).length = 32) ∧
    ∃ out, generate_openvm_streams (utf8 "pdf") 0
        [((20 : Nat), utf8 "账户名：张三"), (21, utf8 "账号：139******41"),
          (29, utf8 "小写：1060.00"), (32, utf8 "18191527")] (List.replicate 32 0) =
        Except.ok out ∧ out.length = 44 ∧
        44 = 3 + 2 * ([((20 : Nat), utf8 "账户名：张三"), (21, utf8 "账号：139******41"),
          (29, utf8 "小写：1060.00"), (32, utf8 "18191527")].length) + 1 + 32 :=
  ⟨by decide, by decide,
    generate_openvm_streams_count (utf8 "pdf") 0 _ (List.replicate 32 0) (by decide) (by decide)⟩
